import Mathlib

/-!
Verification of the diskscan CLI layer (`src/cli/cli.c`) against its
natural-language specification.

The C code is shallowly embedded: `uint32_t` arithmetic is modelled as `Nat`
with explicit `% 2^32` at every operation that can overflow, `uint64_t` as
`Nat` with `% 2^64`, and `long`/`long long` parsing as `Int` with explicit
clamping where the C library clamps.  External engine functions
(`disk_open`, `disk_scan`, the log start/end functions, `disk_scan_stop`)
are not part of this excerpt; their *outcomes* are modelled as an
environment of booleans, and where the spec describes their behaviour the
model is marked `Modelled from the spec:`.
-/

namespace Diskscan

/-- `2^32`, the modulus of `uint32_t` arithmetic. -/
def U32 : Nat := 4294967296

/-- `2^64`, the modulus of `uint64_t` arithmetic. -/
def U64 : Nat := 18446744073709551616

/-- `latency_t` (fields read by `print_latency` in cli.c); the three fields
are `uint32_t` millisecond values. -/
structure latency_t where
  latency_min_msec : Nat
  latency_median_msec : Nat
  latency_max_msec : Nat
deriving DecidableEq, Repr

/-! ## Latency graph renderer (`print_latency`, cli.c lines 96-156)

`print_latency` has a fixed grid height of 30 lines and `min_val = 0`.  -/

/-- `const uint32_t height = 30;` -/
def height : Nat := 30

/-- `const uint32_t min_val = 0;` -/
def min_val : Nat := 0

/-- The `max_val` loop (cli.c lines 102-107): `max_val` starts at 1 and is
raised to any larger `latency_max_msec`.  Comparisons do not overflow. -/
def max_val (g : List latency_t) : Nat :=
  g.foldl (fun m b => if m < b.latency_max_msec then b.latency_max_msec else m) 1

/-- `height_interval` (cli.c lines 109-113): `(max_val - min_val + 1) / (height - 3)`
in `uint32_t` arithmetic (the `+ 1` can wrap), then `0 ↦ 1` and values above
`10000 ↦ 10000`. -/
def height_interval (g : List latency_t) : Nat :=
  let hi := ((max_val g - min_val + 1) % U32) / (height - 3)
  if hi = 0 then 1
  else if hi > 10000 then 10000
  else hi

/-- The tie-break cascade (cli.c lines 127-134), in `uint32_t` arithmetic:
if `max_height == med_height` bump `max_height`; then if
`med_height == min_height` bump `med_height` and, if that collides with
`max_height`, bump `max_height` again.  Returns `(max, med, min)`. -/
def tie_break (max_h med_h min_h : Nat) : Nat × Nat × Nat :=
  let max_h := if max_h = med_h then (max_h + 1) % U32 else max_h
  if med_h = min_h then
    let med_h := (med_h + 1) % U32
    let max_h := if max_h = med_h then (max_h + 1) % U32 else max_h
    (max_h, med_h, min_h)
  else
    (max_h, med_h, min_h)

/-- Per-bucket row heights (cli.c lines 123-134): `value / height_interval + 1`
in `uint32_t` arithmetic for max, median and min, then the tie-break
cascade. -/
def bucket_heights (b : latency_t) (hi : Nat) : Nat × Nat × Nat :=
  tie_break ((b.latency_max_msec / hi + 1) % U32)
            ((b.latency_median_msec / hi + 1) % U32)
            ((b.latency_min_msec / hi + 1) % U32)

/-- The character printed for bucket `b` at row `j` (cli.c lines 136-146):
blank when none of the three heights equals `j`, else `^` for max,
else `*` for median, else `_`. -/
def render_cell (b : latency_t) (hi j : Nat) : Char :=
  let h := bucket_heights b hi
  if h.1 ≠ j ∧ h.2.1 ≠ j ∧ h.2.2 ≠ j then ' '
  else if h.1 = j then '^'
  else if h.2.1 = j then '*'
  else '_'

/-- One data row of the grid (the bucket columns of the row-`j` iteration of
the loop at cli.c lines 116-149; the left-axis label and the final axis line
are printf glue around these cells). -/
def render_row (g : List latency_t) (j : Nat) : List Char :=
  g.map (fun b => render_cell b (height_interval g) j)

/-- The full grid: rows for `j = height` down to `1` (cli.c line 116). -/
def render_grid (g : List latency_t) : List (List Char) :=
  ((List.range height).reverse.map (fun k => render_row g (k + 1)))

/-! ### Spec-side renderer definitions (for refinement comparison)

These follow the specification's words and are compared with the
definitions above, which follow the C source. -/

/-- Spec formula: `maxVal` = maximum `latencyMaxMsec` over all buckets,
floored at 1. -/
def max_val_spec (g : List latency_t) : Nat :=
  g.foldr (fun b m => max b.latency_max_msec m) 1

/-- Spec formula (claim C2): `heightInterval = ceil((maxVal - 0 + 1) / (height - 3))`
clamped to `[1, 10000]`. -/
def height_interval_ceil (g : List latency_t) : Nat :=
  let hi := (max_val_spec g - 0 + 1 + (height - 3) - 1) / (height - 3)
  min 10000 (max 1 hi)

/-- Spec tie-break cascade (claim C3), in exact (non-wrapping) arithmetic:
heights are `value / interval + 1`; if `maxHeight == medHeight` bump
`maxHeight`; if `medHeight == minHeight` bump `medHeight`, and if
`maxHeight` then collides again bump `maxHeight` again. -/
def tie_break_spec (max_h med_h min_h : Nat) : Nat × Nat × Nat :=
  let max_h := if max_h = med_h then max_h + 1 else max_h
  if med_h = min_h then
    let med_h := med_h + 1
    let max_h := if max_h = med_h then max_h + 1 else max_h
    (max_h, med_h, min_h)
  else
    (max_h, med_h, min_h)

/-- Spec rendering rule (claim C4): `^` when `maxHeight = j`, otherwise `*`
when `medHeight = j`, otherwise `_` when `minHeight = j`, otherwise blank;
priority strictly max over median over min. -/
def render_cell_spec (b : latency_t) (hi j : Nat) : Char :=
  let h := bucket_heights b hi
  if h.1 = j then '^'
  else if h.2.1 = j then '*'
  else if h.2.2 = j then '_'
  else ' '

/-! ## C library parsing primitives

`str_to_scan_size` uses `strtol(str, &endptr, 0)` (base 0: leading `0x`
means hex, a leading `0` means octal, otherwise decimal) and the sector
options use `atoll`.  Both are modelled character-exactly below. -/

/-- C `isspace` on the default locale. -/
def isSpaceC (c : Char) : Bool :=
  c = ' ' ∨ c = '\t' ∨ c = '\n' ∨ c = '\x0b' ∨ c = '\x0c' ∨ c = '\r'

/-- Value of `c` as a digit in base `b` (`b ∈ {8, 10, 16}`), if valid. -/
def digitVal? (b : Nat) (c : Char) : Option Nat :=
  let v? : Option Nat :=
    if '0' ≤ c ∧ c ≤ '9' then some (c.toNat - '0'.toNat)
    else if 'a' ≤ c ∧ c ≤ 'f' then some (c.toNat - 'a'.toNat + 10)
    else if 'A' ≤ c ∧ c ≤ 'F' then some (c.toNat - 'A'.toNat + 10)
    else none
  match v? with
  | some v => if v < b then some v else none
  | none => none

/-- Maximal run of base-`b` digits at the head of the list; returns their
values and the unconsumed remainder. -/
def takeDigits (b : Nat) : List Char → List Nat × List Char
  | [] => ([], [])
  | c :: t =>
    match digitVal? b c with
    | some d =>
      let r := takeDigits b t
      (d :: r.1, r.2)
    | none => ([], c :: t)

/-- Numeric value of a digit-value list in base `b`. -/
def digitsVal (b : Nat) (ds : List Nat) : Nat :=
  ds.foldl (fun a d => a * b + d) 0

/-- `2^63 - 1`. -/
def LONG_MAX : Int := 9223372036854775807

/-- `-2^63`. -/
def LONG_MIN : Int := -9223372036854775808

/-- Optional sign at the head of the numeral: returns (negative?, rest). -/
def splitSign : List Char → Bool × List Char
  | [] => (false, [])
  | c :: t =>
    if c = '-' then (true, t)
    else if c = '+' then (false, t)
    else (false, c :: t)

/-- Base detection for `strtol` with base argument 0: `0x`/`0X` followed by a
hex digit selects base 16 (the `0x` is consumed); otherwise a leading `0`
selects base 8; otherwise base 10. -/
def detectBase : List Char → Nat × List Char
  | [] => (10, [])
  | c :: rest =>
    if c = '0' then
      match rest with
      | x :: c2 :: t =>
        if (x = 'x' ∨ x = 'X') ∧ (digitVal? 16 c2).isSome then (16, c2 :: t)
        else (8, c :: rest)
      | _ => (8, c :: rest)
    else (10, c :: rest)

/-- Result of `strtol`: the parsed `long` value, whether `errno` was set to
`ERANGE`, and the remainder of the string from `endptr` on. -/
structure strtol_result where
  val : Int
  err : Bool
  rest : List Char
deriving DecidableEq, Repr

/-- `strtol(s, &endptr, 0)`: skip whitespace, optional sign, base detection,
maximal digit run; no digits means value 0 with `endptr = s`; out-of-range
values clamp to `LONG_MAX`/`LONG_MIN` with `errno = ERANGE`. -/
def strtol0 (s : List Char) : strtol_result :=
  let s1 := s.dropWhile isSpaceC
  let sg := splitSign s1
  let bs := detectBase sg.2
  let dr := takeDigits bs.1 bs.2
  if dr.1 = [] then
    { val := 0, err := false, rest := s }
  else
    let m : Int := (digitsVal bs.1 dr.1 : Int)
    let v : Int := if sg.1 then -m else m
    if v > LONG_MAX then { val := LONG_MAX, err := true, rest := dr.2 }
    else if v < LONG_MIN then { val := LONG_MIN, err := true, rest := dr.2 }
    else { val := v, err := false, rest := dr.2 }

/-- Two's-complement wrap of an `Int` into the signed 64-bit range; models
the machine behaviour of the (formally undefined) signed overflow in
`val *= factor`. -/
def wrap64 (x : Int) : Int :=
  (x + 9223372036854775808) % (18446744073709551616 : Int) - 9223372036854775808

/-- C conversion of a signed 64-bit value to `unsigned` (32-bit): reduction
modulo `2^32` (well defined in C). -/
def toU32 (x : Int) : Nat := (x % (U32 : Int)).toNat

/-- C conversion of a signed value to `uint64_t`: reduction modulo `2^64`. -/
def toU64 (x : Int) : Nat := (x % (U64 : Int)).toNat

/-- The suffix factor table of `str_to_scan_size` (cli.c lines 186-195):
`strcmp` of the remainder against `b`/`B` (1), `k`/`K` (1024), `m`/`M`
(1024*1024); anything else is an error. -/
def suffix_factor (s : List Char) : Option Nat :=
  if s = ['b'] ∨ s = ['B'] then some 1
  else if s = ['k'] ∨ s = ['K'] then some 1024
  else if s = ['m'] ∨ s = ['M'] then some (1024 * 1024)
  else none

/-- `str_to_scan_size` (cli.c lines 171-207): `strtol` base 0; error or a
non-positive value returns 0; a non-empty remainder must be a recognized
suffix (else 0) and multiplies the value; the value is converted to
`unsigned` (mod `2^32`) and values above `32*1024*1024` return 0. -/
def str_to_scan_size (s : List Char) : Nat :=
  let r := strtol0 s
  if r.err ∨ r.val ≤ 0 then 0
  else
    let val? : Option Int :=
      if r.rest = [] then some r.val
      else
        match suffix_factor r.rest with
        | some f => some (wrap64 (r.val * (f : Int)))
        | none => none
    match val? with
    | none => 0
    | some val =>
      let retval := toU32 val
      if retval > 32 * 1024 * 1024 then 0 else retval

/-- `atoll`: skip whitespace, optional sign, maximal decimal digit run; no
digits yields 0; no error reporting.  (Out-of-`long long`-range input is
undefined behaviour in C; the model returns the exact value, and the
theorems about sector parsing stay inside the representable range.) -/
def atoll (s : List Char) : Int :=
  let s1 := s.dropWhile isSpaceC
  let sg := splitSign s1
  let dr := takeDigits 10 sg.2
  let m : Int := (digitsVal 10 dr.1 : Int)
  if sg.1 then -m else m

/-- The ASCII character of the decimal digit `d`. -/
def decChar (d : Nat) : Char := Char.ofNat (48 + d)

/-- A string is numeric at its start when, after optional whitespace and an
optional sign, it begins with a decimal digit. -/
def numeric_start (s : List Char) : Bool :=
  match (splitSign (s.dropWhile isSpaceC)).2 with
  | [] => false
  | c :: _ => (digitVal? 10 c).isSome

/-! ## Options and `parse_args` (cli.c lines 41-53, 209-299) -/

inductive scan_mode
  | SCAN_MODE_SEQ
  | SCAN_MODE_RANDOM
  | SCAN_MODE_UNKNOWN
deriving DecidableEq, Repr

inductive disk_mount_e
  | DISK_NOT_MOUNTED
  | DISK_MOUNTED_RO
  | DISK_MOUNTED_RW
deriving DecidableEq, Repr

/-- Modelled from the spec: `str_to_scan_mode` (diskscan library, not in
this excerpt) maps the recognized tokens `seq` and `random` to the two scan
modes and anything else to `SCAN_MODE_UNKNOWN`. -/
def str_to_scan_mode (s : String) : scan_mode :=
  if s = "seq" then .SCAN_MODE_SEQ
  else if s = "random" then .SCAN_MODE_RANDOM
  else .SCAN_MODE_UNKNOWN

/-- `struct options_t` (cli.c lines 41-53). -/
structure options_t where
  disk_path : Option String
  verbose : Nat
  fix : Bool
  mode : scan_mode
  scan_size : Nat
  data_log_name : Option String
  data_log_raw_name : Option String
  allowed_mount : disk_mount_e
  start_sector : Nat
  end_sector : Nat
deriving DecidableEq, Repr

/-- One recognized token of the `getopt_long` loop (option-string parsing
mechanics themselves are glue outside this layer); `unknown_option` is any
token `getopt_long` rejects (the `default:` case). -/
inductive cli_arg
  | verbose
  | fix
  | scan (arg : String)
  | size (arg : String)
  | output (arg : String)
  | raw_log (arg : String)
  | start_sector (arg : String)
  | end_sector (arg : String)
  | force_mounted
  | force_mounted_rw
  | unknown_option
deriving DecidableEq, Repr

/-- One iteration of the option loop (cli.c lines 237-274).  The fold state
is `(opts, allowed_mount, unknown)`: `allowed_mount` is the static local the
two `force-mounted` long options write through their flag pointers, and
`unknown` records the `default:` case. -/
def apply_arg : options_t × disk_mount_e × Bool → cli_arg →
    options_t × disk_mount_e × Bool
  | (o, am, u), .verbose => ({ o with verbose := o.verbose + 1 }, am, u)
  | (o, am, u), .fix => ({ o with fix := true }, am, u)
  | (o, am, u), .scan a =>
    let m := str_to_scan_mode a
    ({ o with mode := if m = .SCAN_MODE_UNKNOWN then .SCAN_MODE_SEQ else m }, am, u)
  | (o, am, u), .size a => ({ o with scan_size := str_to_scan_size a.data }, am, u)
  | (o, am, u), .output a => ({ o with data_log_name := some a }, am, u)
  | (o, am, u), .raw_log a => ({ o with data_log_raw_name := some a }, am, u)
  | (o, am, u), .start_sector a => ({ o with start_sector := toU64 (atoll a.data) }, am, u)
  | (o, am, u), .end_sector a => ({ o with end_sector := toU64 (atoll a.data) }, am, u)
  | (o, _, u), .force_mounted => (o, .DISK_MOUNTED_RO, u)
  | (o, _, u), .force_mounted_rw => (o, .DISK_MOUNTED_RW, u)
  | (o, am, _), .unknown_option => (o, am, true)

/-- `parse_args` (cli.c lines 209-299) on tokenized options and the list of
positional (non-option) arguments.  `none` models `return usage()`, i.e. a
return value of 1: no positional path (`optind == argc`), more than one
positional path (`optind < argc - 1`), an unknown option, or a resolved
scan size of 0. -/
def parse_args (args : List cli_arg) (positionals : List String)
    (opts0 : options_t) : Option options_t :=
  let o1 := { opts0 with scan_size := 64 * 1024 }
  let st := args.foldl apply_arg (o1, .DISK_NOT_MOUNTED, false)
  let o := st.1
  if positionals.length = 0 then none
  else if positionals.length > 1 then none
  else if st.2.2 then none
  else if o.scan_size = 0 then none
  else some { o with disk_path := positionals.head?, allowed_mount := st.2.1 }

/-! ## Lifecycle coordinator (`diskscan_cli`, cli.c lines 324-363)

The external engine calls are not in this excerpt; their outcomes form an
environment.  The coordinator's observable behaviour is the number of times
it performs each external call, plus its return code. -/

/-- Outcomes of the external engine calls for one run.  `disk_open_ok` and
`disk_scan_ok` mean a 0 (success) return of `disk_open` / `disk_scan`.
Modelled from the spec: the log start functions `data_log_raw_start` and
`data_log_start` (not in this excerpt) can fail to attach their log
(`LogAttachError`); the corresponding fields record that outcome, which
cli.c does not consult. -/
structure engine_env where
  disk_open_ok : Bool
  data_log_raw_start_ok : Bool
  data_log_start_ok : Bool
  disk_scan_ok : Bool
deriving DecidableEq, Repr

/-- How many times the coordinator invoked each external call. -/
structure call_trace where
  disk_open_calls : Nat
  data_log_raw_start_calls : Nat
  data_log_raw_end_calls : Nat
  data_log_start_calls : Nat
  data_log_end_calls : Nat
  disk_scan_calls : Nat
  disk_close_calls : Nat
deriving DecidableEq, Repr

def no_calls : call_trace :=
  { disk_open_calls := 0, data_log_raw_start_calls := 0,
    data_log_raw_end_calls := 0, data_log_start_calls := 0,
    data_log_end_calls := 0, disk_scan_calls := 0, disk_close_calls := 0 }

/-- The options as `diskscan_cli` initializes them (cli.c lines 329-331):
`memset` to zero, then mode sequential and mount disallowed. -/
def cli_initial_opts : options_t :=
  { disk_path := none, verbose := 0, fix := false, mode := .SCAN_MODE_SEQ,
    scan_size := 0, data_log_name := none, data_log_raw_name := none,
    allowed_mount := .DISK_NOT_MOUNTED, start_sector := 0, end_sector := 0 }

/-- `diskscan_cli` (cli.c lines 324-363): initialize options, parse
arguments (failure returns 1 with nothing called), open the device (failure
returns 1 without closing), start each configured log ignoring the result,
run the scan recording its result, end each configured log, close the
device, and return the scan result. -/
def diskscan_cli (args : List cli_arg) (positionals : List String)
    (env : engine_env) : call_trace × Nat :=
  match parse_args args positionals cli_initial_opts with
  | none => (no_calls, 1)
  | some opts =>
    if ¬ env.disk_open_ok then
      ({ no_calls with disk_open_calls := 1 }, 1)
    else
      let raw := if opts.data_log_raw_name.isSome then 1 else 0
      let log := if opts.data_log_name.isSome then 1 else 0
      let ret := if env.disk_scan_ok then 0 else 1
      ({ disk_open_calls := 1,
         data_log_raw_start_calls := raw,
         data_log_raw_end_calls := raw,
         data_log_start_calls := log,
         data_log_end_calls := log,
         disk_scan_calls := 1,
         disk_close_calls := 1 }, ret)

/-- The device open succeeded during this run: it was invoked and returned
success. -/
def disk_open_succeeded (t : call_trace) (env : engine_env) : Prop :=
  t.disk_open_calls = 1 ∧ env.disk_open_ok = true

/-- The raw-log start function succeeded: it was invoked and (in the
spec-modelled environment) attached its log. -/
def data_log_raw_start_succeeded (t : call_trace) (env : engine_env) : Prop :=
  t.data_log_raw_start_calls = 1 ∧ env.data_log_raw_start_ok = true

/-- The aggregated-log start function succeeded: it was invoked and (in the
spec-modelled environment) attached its log. -/
def data_log_start_succeeded (t : call_trace) (env : engine_env) : Prop :=
  t.data_log_start_calls = 1 ∧ env.data_log_start_ok = true

/-! ## Cancellation controller (`setup_signals` / `diskscan_cli_signal`,
cli.c lines 308-322) -/

/-- The cooperative scan state observed by the engine. -/
inductive scan_state
  | Running
  | StopRequested
deriving DecidableEq, Repr

/-- Modelled from the spec: `disk_scan_stop` (diskscan library, not in this
excerpt) maps an asynchronous external stop request onto the cooperative
stop signal: it moves the scan state to `StopRequested`. -/
def disk_scan_stop (_ : scan_state) : scan_state := .StopRequested

/-- `diskscan_cli_signal` (cli.c lines 308-311): the installed handler calls
`disk_scan_stop` on the global disk and returns; it does not exit the
process. -/
def diskscan_cli_signal (s : scan_state) : scan_state := disk_scan_stop s

/-- The signals `setup_signals` configures. -/
inductive signal_t
  | SIGINT
  | SIGTERM
deriving DecidableEq, Repr

/-- What a configured signal does on delivery. -/
inductive signal_disposition
  | CallStopHandler
  | TerminateProcess
deriving DecidableEq, Repr

/-- `setup_signals` (cli.c lines 313-322): both SIGINT and SIGTERM are
routed to `diskscan_cli_signal` (with `SA_RESTART`), replacing the default
process termination. -/
def setup_signals : signal_t → signal_disposition :=
  fun _ => .CallStopHandler

/-! # Helper lemmas -/

lemma max_val_foldl (g : List latency_t) (a : Nat) :
    g.foldl (fun m b => if m < b.latency_max_msec then b.latency_max_msec else m) a
      = max a (g.foldr (fun b m => max b.latency_max_msec m) 0) := by
  induction g generalizing a with
  | nil => simp
  | cons b g ih =>
    simp only [List.foldl_cons, List.foldr_cons, ih]
    have h : (if a < b.latency_max_msec then b.latency_max_msec else a)
        = max a b.latency_max_msec := by
      split <;> omega
    rw [h, ← Nat.max_assoc]

lemma max_val_eq_spec (g : List latency_t) : max_val g = max_val_spec g := by
  have hr : ∀ (l : List latency_t) (a : Nat),
      l.foldr (fun b m => max b.latency_max_msec m) a
        = max (l.foldr (fun b m => max b.latency_max_msec m) 0) a := by
    intro l
    induction l with
    | nil => simp
    | cons b l ih =>
      intro a
      simp only [List.foldr_cons, ih a, ← Nat.max_assoc]
  unfold max_val max_val_spec
  rw [max_val_foldl, hr g 1, Nat.max_comm]

lemma le_max_val (g : List latency_t) (b : latency_t) (hb : b ∈ g) :
    b.latency_max_msec ≤ max_val g := by
  have h : ∀ (l : List latency_t), b ∈ l →
      b.latency_max_msec ≤ l.foldr (fun c m => max c.latency_max_msec m) 0 := by
    intro l
    induction l with
    | nil => intro h; cases h
    | cons c l ih =>
      intro h
      rcases List.mem_cons.1 h with h | h
      · subst h; exact Nat.le_max_left _ _
      · exact le_trans (ih h) (Nat.le_max_right _ _)
  unfold max_val
  rw [max_val_foldl]
  exact le_trans (h g hb) (Nat.le_max_right _ _)

lemma one_le_max_val (g : List latency_t) : 1 ≤ max_val g := by
  unfold max_val
  rw [max_val_foldl]
  exact Nat.le_max_left _ _

lemma tie_break_eq_spec (a b c : Nat) (ha : a + 2 < U32) (hb : b + 1 < U32) :
    tie_break a b c = tie_break_spec a b c := by
  have e1 : (a + 1) % U32 = a + 1 := Nat.mod_eq_of_lt (by omega)
  have e2 : (b + 1) % U32 = b + 1 := Nat.mod_eq_of_lt (by omega)
  have e3 : (a + 1 + 1) % U32 = a + 1 + 1 := Nat.mod_eq_of_lt (by omega)
  simp only [tie_break, tie_break_spec, e1, e2]
  by_cases h1 : a = b
  · simp only [if_pos h1, e1, e3]
  · simp only [if_neg h1, e1]

lemma tie_break_spec_bounds (a b c : Nat) :
    (tie_break_spec a b c).1 ≤ a + 2 ∧ (tie_break_spec a b c).2.1 ≤ b + 1
    ∧ (tie_break_spec a b c).2.2 = c := by
  simp only [tie_break_spec]
  split_ifs <;> simp

lemma height_interval_eq (g : List latency_t) (h : max_val g + 1 < U32) :
    height_interval g = min 10000 (max 1 ((max_val g + 1) / (height - 3))) := by
  have e : (max_val g - min_val + 1) % U32 = max_val g + 1 := by
    simp only [min_val, Nat.sub_zero]
    exact Nat.mod_eq_of_lt h
  simp only [height_interval, e, height]
  rw [Nat.min_def, Nat.max_def]
  split_ifs <;> omega

lemma height_interval_bounds (g : List latency_t) :
    1 ≤ height_interval g ∧ height_interval g ≤ 10000 := by
  simp only [height_interval, height, U32]
  split_ifs <;> omega

/-! # Claim theorems: latency graph renderer -/

/-- C2 (corrected — counterexample): the vertical scale is *not*
`ceil((maxVal − 0 + 1) / (height − 3))` clamped to `[1, 10000]`: with a
single bucket of max latency 30, the code's floor division gives interval 1
where the ceiling formula gives 2. -/
theorem C2_counterexample :
    height_interval [⟨0, 0, 30⟩] ≠ height_interval_ceil [⟨0, 0, 30⟩]
    ∧ height_interval [⟨0, 0, 30⟩] = 1 ∧ height_interval_ceil [⟨0, 0, 30⟩] = 2 := by
  refine ⟨by decide, by decide, by decide⟩

/-- C2 (amended): the vertical scale is computed with *floor* division,
`heightInterval = floor((maxVal − 0 + 1) / (height − 3))` then clamped to
`[1, 10000]`, where `maxVal` is the maximum `latency_max_msec` over all
buckets floored at 1 (provided `maxVal + 1` does not wrap the 32-bit
increment). -/
theorem C2_amended (g : List latency_t) (h : max_val g + 1 < U32) :
    height_interval g = min 10000 (max 1 ((max_val_spec g - min_val + 1) / (height - 3)))
    ∧ max_val g = max_val_spec g := by
  have e := max_val_eq_spec g
  refine ⟨?_, e⟩
  rw [← e, min_val, Nat.sub_zero]
  exact height_interval_eq g h

/-- C2 witness: the amended scale formula evaluated on a single bucket of
max latency 30. -/
theorem C2_witness :
    height_interval [⟨0, 0, 30⟩]
      = min 10000 (max 1 ((max_val_spec [⟨0, 0, 30⟩] - min_val + 1) / (height - 3))) :=
  (C2_amended [⟨0, 0, 30⟩] (by decide)).1

/-- C3 (confirmed): per-bucket row heights are `value/heightInterval + 1`
for max, median and min followed by exactly the cascading tie-break (bump
max on collision with median; bump median on collision with min and re-bump
max if it collides again); a single bucket with min = median = max = 0
yields heights 3/2/1 and three distinct marks on rows 3, 2, 1. -/
theorem C3_tie_break :
    (∀ (v_min v_med v_max hi : Nat),
        v_max / hi + 3 < U32 → v_med / hi + 2 < U32 → v_min / hi + 1 < U32 →
        bucket_heights ⟨v_min, v_med, v_max⟩ hi
          = tie_break_spec (v_max / hi + 1) (v_med / hi + 1) (v_min / hi + 1))
    ∧ bucket_heights ⟨0, 0, 0⟩ (height_interval [⟨0, 0, 0⟩]) = (3, 2, 1)
    ∧ render_row [⟨0, 0, 0⟩] 3 = ['^']
    ∧ render_row [⟨0, 0, 0⟩] 2 = ['*']
    ∧ render_row [⟨0, 0, 0⟩] 1 = ['_'] := by
  refine ⟨?_, by decide, by decide, by decide, by decide⟩
  intro v_min v_med v_max hi h1 h2 h3
  unfold bucket_heights
  dsimp only
  rw [Nat.mod_eq_of_lt (by omega), Nat.mod_eq_of_lt (by omega),
    Nat.mod_eq_of_lt (by omega)]
  exact tie_break_eq_spec _ _ _ (by omega) (by omega)

/-- C3 witness: the tie-break refinement evaluated at a concrete bucket. -/
theorem C3_witness :
    bucket_heights ⟨5, 10, 20⟩ 2
      = tie_break_spec (20 / 2 + 1) (10 / 2 + 1) (5 / 2 + 1) :=
  C3_tie_break.1 5 10 20 2 (by decide) (by decide) (by decide)

/-- C4 (confirmed): the rendered cell is `^` when the tie-broken max height
equals the row, otherwise `*` when the median height does, otherwise `_`
when the min height does, otherwise blank — priority strictly max over
median over min. -/
theorem C4_cell_priority (b : latency_t) (hi j : Nat) :
    render_cell b hi j = render_cell_spec b hi j := by
  by_cases h1 : (bucket_heights b hi).1 = j <;>
    by_cases h2 : (bucket_heights b hi).2.1 = j <;>
      by_cases h3 : (bucket_heights b hi).2.2 = j <;>
        simp [render_cell, render_cell_spec, h1, h2, h3]

/-- C5 (corrected — counterexample): a row height *can* exceed
`height + 3 = 33`: a single bucket with min = median = max = 52 gets
interval 1 and a tie-broken max height of 55. -/
theorem C5_counterexample :
    (bucket_heights ⟨52, 52, 52⟩ (height_interval [⟨52, 52, 52⟩])).1 = 55
    ∧ height + 3 < 55 := by
  refine ⟨by decide, by decide⟩

/-- C5 (amended): `heightInterval` always lies in `[1, 10000]`; and for
buckets with ordered values (`min ≤ median ≤ max`), as long as the interval
was not clamped at 10000 (`maxVal ≤ 270025`), no tie-broken row height
exceeds `2*(height − 3) + 1 = 55`. -/
theorem C5_amended (g : List latency_t) :
    (1 ≤ height_interval g ∧ height_interval g ≤ 10000)
    ∧ (max_val g ≤ 270025 →
        ∀ b ∈ g, b.latency_min_msec ≤ b.latency_median_msec →
          b.latency_median_msec ≤ b.latency_max_msec →
          (bucket_heights b (height_interval g)).1 ≤ 2 * (height - 3) + 1
          ∧ (bucket_heights b (height_interval g)).2.1 ≤ 2 * (height - 3) + 1
          ∧ (bucket_heights b (height_interval g)).2.2 ≤ 2 * (height - 3) + 1) := by
  refine ⟨height_interval_bounds g, ?_⟩
  intro hM b hb hnm hmx
  have hU32 : U32 = 4294967296 := by norm_num [U32]
  have hbmax : b.latency_max_msec ≤ max_val g := le_max_val g b hb
  set M := max_val g with hMdef
  set I := height_interval g with hIdef
  have hIeq : I = min 10000 (max 1 ((M + 1) / (height - 3))) :=
    height_interval_eq g (by omega)
  have hdm := Nat.div_add_mod (M + 1) 27
  have hmod : (M + 1) % 27 < 27 := Nat.mod_lt _ (by norm_num)
  rw [Nat.min_def, Nat.max_def] at hIeq
  simp only [height] at hIeq
  norm_num at hIeq
  have hMI : M ≤ 27 * I + 25 ∧ 1 ≤ I := by
    split_ifs at hIeq <;> omega
  have hdiv : ∀ v : Nat, v ≤ M → v / I + 1 ≤ 53 := by
    intro v hv
    have : v / I < 53 := by
      rw [Nat.div_lt_iff_lt_mul (by omega)]
      omega
    omega
  have hmax3 : b.latency_max_msec / I + 1 ≤ 53 := hdiv _ hbmax
  have hmed3 : b.latency_median_msec / I + 1 ≤ 53 := hdiv _ (le_trans hmx hbmax)
  have hmin3 : b.latency_min_msec / I + 1 ≤ 53 := hdiv _ (le_trans hnm (le_trans hmx hbmax))
  unfold bucket_heights
  rw [Nat.mod_eq_of_lt (by omega), Nat.mod_eq_of_lt (by omega),
    Nat.mod_eq_of_lt (by omega)]
  rw [tie_break_eq_spec _ _ _ (by omega) (by omega)]
  obtain ⟨b1, b2, b3⟩ := tie_break_spec_bounds (b.latency_max_msec / I + 1)
    (b.latency_median_msec / I + 1) (b.latency_min_msec / I + 1)
  refine ⟨?_, ?_, ?_⟩ <;> simp only [height] <;> omega

/-- C5 witness: the amended bounds evaluated at a concrete ordered
bucket. -/
theorem C5_witness :
    (bucket_heights ⟨1, 2, 3⟩ (height_interval [⟨1, 2, 3⟩])).1 ≤ 2 * (height - 3) + 1
    ∧ (bucket_heights ⟨1, 2, 3⟩ (height_interval [⟨1, 2, 3⟩])).2.1 ≤ 2 * (height - 3) + 1
    ∧ (bucket_heights ⟨1, 2, 3⟩ (height_interval [⟨1, 2, 3⟩])).2.2 ≤ 2 * (height - 3) + 1 :=
  (C5_amended [⟨1, 2, 3⟩]).2 (by decide) ⟨1, 2, 3⟩ (by decide) (by decide) (by decide)

/-! # Helper lemmas: numeral parsing -/

lemma digitVal?_decChar (d : Nat) (hd : d < 10) : digitVal? 10 (decChar d) = some d := by
  interval_cases d <;> decide

lemma isSpaceC_decChar (d : Nat) (hd : d < 10) : isSpaceC (decChar d) = false := by
  interval_cases d <;> decide

lemma decChar_not_sign (d : Nat) (hd : d < 10) :
    decChar d ≠ '-' ∧ decChar d ≠ '+' ∧ (d ≠ 0 → decChar d ≠ '0') := by
  interval_cases d <;> decide

lemma takeDigits_append (b : Nat) (ds rest : List Char)
    (h1 : ∀ c ∈ ds, (digitVal? b c).isSome)
    (h2 : ∀ c t, rest = c :: t → digitVal? b c = none) :
    takeDigits b (ds ++ rest) = (ds.map (fun c => (digitVal? b c).getD 0), rest) := by
  induction ds with
  | nil =>
    simp only [List.nil_append, List.map_nil]
    cases rest with
    | nil => rfl
    | cons c t => simp only [takeDigits, h2 c t rfl]
  | cons c ds ih =>
    have hc := h1 c (List.mem_cons_self c ds)
    obtain ⟨d, hd⟩ := Option.isSome_iff_exists.1 hc
    simp only [List.cons_append, takeDigits, hd, List.map_cons, List.append_eq]
    rw [ih (fun x hx => h1 x (List.mem_cons_of_mem _ hx))]
    simp [hd]

lemma map_digitVal_decChar (ds : List Nat) (h : ∀ d ∈ ds, d < 10) :
    (ds.map decChar).map (fun c => (digitVal? 10 c).getD 0) = ds := by
  induction ds with
  | nil => rfl
  | cons d ds ih =>
    simp only [List.map_cons, digitVal?_decChar d (h d (List.mem_cons_self _ _)),
      Option.getD_some]
    rw [ih (fun x hx => h x (List.mem_cons_of_mem _ hx))]

lemma foldl_digits_ge (ds : List Nat) (a : Nat) :
    a ≤ ds.foldl (fun x d => x * 10 + d) a := by
  induction ds generalizing a with
  | nil => exact le_refl a
  | cons d ds ih =>
    calc a ≤ a * 10 + d := by omega
    _ ≤ ds.foldl (fun x d => x * 10 + d) (a * 10 + d) := ih (a * 10 + d)

lemma digitsVal_pos (d0 : Nat) (ds : List Nat) (h : d0 ≠ 0) :
    0 < digitsVal 10 (d0 :: ds) := by
  unfold digitsVal
  simp only [List.foldl_cons]
  have := foldl_digits_ge ds (0 * 10 + d0)
  omega

/-- `strtol` base 0 on a canonical positive decimal numeral followed by a
non-digit remainder parses exactly the numeral. -/
lemma strtol0_decimal (ds : List Nat) (sfx : List Char)
    (hne : ds ≠ []) (hds : ∀ d ∈ ds, d < 10) (hh : ds.head? ≠ some 0)
    (hsfx : ∀ c t, sfx = c :: t → digitVal? 10 c = none)
    (hrange : digitsVal 10 ds ≤ 9223372036854775807) :
    strtol0 (ds.map decChar ++ sfx)
      = { val := (digitsVal 10 ds : Int), err := false, rest := sfx } := by
  obtain ⟨d0, ds', rfl⟩ : ∃ d0 ds', ds = d0 :: ds' := by
    cases ds with
    | nil => exact absurd rfl hne
    | cons d0 ds' => exact ⟨d0, ds', rfl⟩
  have hd0 : d0 < 10 := hds _ (List.mem_cons_self _ _)
  have hd0ne : d0 ≠ 0 := by
    intro h0
    exact hh (by simp [h0])
  obtain ⟨hs1, hs2, hs3⟩ := decChar_not_sign d0 hd0
  have hdig : ∀ c ∈ (d0 :: ds').map decChar, (digitVal? 10 c).isSome := by
    intro c hc
    obtain ⟨d, hd, rfl⟩ := List.mem_map.1 hc
    rw [digitVal?_decChar d (hds d hd)]
    rfl
  have e1 : ((d0 :: ds').map decChar ++ sfx).dropWhile isSpaceC
      = (d0 :: ds').map decChar ++ sfx := by
    simp only [List.map_cons, List.cons_append, List.dropWhile_cons,
      isSpaceC_decChar d0 hd0]
    simp
  have e2 : splitSign ((d0 :: ds').map decChar ++ sfx)
      = (false, (d0 :: ds').map decChar ++ sfx) := by
    simp only [List.map_cons, List.cons_append, splitSign, if_neg hs1, if_neg hs2]
  have e3 : detectBase ((d0 :: ds').map decChar ++ sfx)
      = (10, (d0 :: ds').map decChar ++ sfx) := by
    simp only [List.map_cons, List.cons_append, detectBase, if_neg (hs3 hd0ne)]
  have e4 := takeDigits_append 10 ((d0 :: ds').map decChar) sfx hdig hsfx
  have e5 := map_digitVal_decChar (d0 :: ds') hds
  have hpos := digitsVal_pos d0 ds' hd0ne
  simp only [strtol0, e1, e2, e3, e4, e5]
  rw [if_neg (show ¬(d0 :: ds' = []) by simp)]
  rw [if_neg (show ¬(false = true) by decide)]
  rw [if_neg (by unfold LONG_MAX; omega), if_neg (by unfold LONG_MIN; omega)]

/-- `strtol` base 0 on a string that does not start (after whitespace and an
optional sign) with a decimal digit parses no digits: value 0, no error. -/
lemma strtol0_nonnumeric (s : List Char) (h : numeric_start s = false) :
    (strtol0 s).val = 0 ∧ (strtol0 s).err = false := by
  unfold numeric_start at h
  unfold strtol0
  cases hsp : (splitSign (s.dropWhile isSpaceC)).2 with
  | nil =>
    simp [hsp, detectBase, takeDigits]
  | cons c t =>
    rw [hsp] at h
    simp only [] at h
    have hc : digitVal? 10 c = none := by
      cases hdv : digitVal? 10 c with
      | none => rfl
      | some d => rw [hdv] at h; simp at h
    have hc0 : c ≠ '0' := by
      intro h0
      rw [h0] at hc
      exact absurd hc (by decide)
    simp [hsp, detectBase, hc0, takeDigits, hc]

lemma atoll_neg_decimal (ds : List Nat) (hds : ∀ d ∈ ds, d < 10) :
    atoll ('-' :: ds.map decChar) = -(digitsVal 10 ds : Int) := by
  have hdig : ∀ c ∈ ds.map decChar, (digitVal? 10 c).isSome := by
    intro c hc
    obtain ⟨d, hd, rfl⟩ := List.mem_map.1 hc
    rw [digitVal?_decChar d (hds d hd)]
    rfl
  have e1 : ('-' :: ds.map decChar).dropWhile isSpaceC = '-' :: ds.map decChar := by
    simp [List.dropWhile_cons, isSpaceC]
  have e2 : splitSign ('-' :: ds.map decChar) = (true, ds.map decChar) := by
    simp [splitSign]
  have e3 := takeDigits_append 10 (ds.map decChar) [] hdig (by intro c t h; simp at h)
  rw [List.append_nil] at e3
  have e5 := map_digitVal_decChar ds hds
  simp only [atoll, e1, e2, e3, e5]
  simp

lemma atoll_nonnumeric (s : List Char) (h : numeric_start s = false) :
    atoll s = 0 := by
  unfold numeric_start at h
  unfold atoll
  cases hsp : (splitSign (s.dropWhile isSpaceC)).2 with
  | nil =>
    simp [hsp, takeDigits, digitsVal]
  | cons c t =>
    rw [hsp] at h
    simp only [] at h
    have hc : digitVal? 10 c = none := by
      cases hdv : digitVal? 10 c with
      | none => rfl
      | some d => rw [hdv] at h; simp at h
    simp [hsp, takeDigits, hc, digitsVal]

lemma digitsVal_head_pos (ds : List Nat) (hne : ds ≠ []) (hh : ds.head? ≠ some 0) :
    0 < digitsVal 10 ds := by
  obtain ⟨d0, ds', rfl⟩ : ∃ d0 ds', ds = d0 :: ds' := by
    cases ds with
    | nil => exact absurd rfl hne
    | cons a b => exact ⟨a, b, rfl⟩
  apply digitsVal_pos
  intro h0
  exact hh (by simp [h0])

/-- `strtol` base 0 on a negative canonical decimal numeral followed by a
non-digit remainder parses exactly the negated numeral. -/
lemma strtol0_neg_decimal (ds : List Nat) (sfx : List Char)
    (hne : ds ≠ []) (hds : ∀ d ∈ ds, d < 10) (hh : ds.head? ≠ some 0)
    (hsfx : ∀ c t, sfx = c :: t → digitVal? 10 c = none)
    (hrange : digitsVal 10 ds ≤ 9223372036854775808) :
    strtol0 ('-' :: (ds.map decChar ++ sfx))
      = { val := -(digitsVal 10 ds : Int), err := false, rest := sfx } := by
  obtain ⟨d0, ds', rfl⟩ : ∃ d0 ds', ds = d0 :: ds' := by
    cases ds with
    | nil => exact absurd rfl hne
    | cons a b => exact ⟨a, b, rfl⟩
  have hd0 : d0 < 10 := hds _ (List.mem_cons_self _ _)
  have hd0ne : d0 ≠ 0 := by
    intro h0
    exact hh (by simp [h0])
  obtain ⟨hs1, hs2, hs3⟩ := decChar_not_sign d0 hd0
  have hdig : ∀ c ∈ (d0 :: ds').map decChar, (digitVal? 10 c).isSome := by
    intro c hc
    obtain ⟨d, hd, rfl⟩ := List.mem_map.1 hc
    rw [digitVal?_decChar d (hds d hd)]
    rfl
  have e1 : ('-' :: ((d0 :: ds').map decChar ++ sfx)).dropWhile isSpaceC
      = '-' :: ((d0 :: ds').map decChar ++ sfx) := by
    simp [List.dropWhile_cons, isSpaceC]
  have e2 : splitSign ('-' :: ((d0 :: ds').map decChar ++ sfx))
      = (true, (d0 :: ds').map decChar ++ sfx) := by
    simp [splitSign]
  have e3 : detectBase ((d0 :: ds').map decChar ++ sfx)
      = (10, (d0 :: ds').map decChar ++ sfx) := by
    simp only [List.map_cons, List.cons_append, detectBase, if_neg (hs3 hd0ne)]
  have e4 := takeDigits_append 10 ((d0 :: ds').map decChar) sfx hdig hsfx
  have e5 := map_digitVal_decChar (d0 :: ds') hds
  have hpos := digitsVal_pos d0 ds' hd0ne
  simp only [strtol0, e1, e2, e3, e4, e5]
  rw [if_neg (show ¬(d0 :: ds' = []) by simp)]
  rw [if_pos trivial]
  rw [if_neg (by unfold LONG_MAX; omega), if_neg (by unfold LONG_MIN; omega)]

/-- The recognized suffixes are exactly the six one-character strings of
the `strcmp` chain. -/
lemma suffix_factor_enum (sfx : List Char) (f : Nat) (h : suffix_factor sfx = some f) :
    sfx = ['b'] ∨ sfx = ['B'] ∨ sfx = ['k'] ∨ sfx = ['K'] ∨ sfx = ['m'] ∨ sfx = ['M'] := by
  unfold suffix_factor at h
  split_ifs at h with h1 h2 h3 <;> tauto

lemma suffix_factor_cases (sfx : List Char) (f : Nat) (h : suffix_factor sfx = some f) :
    (∃ c, sfx = [c] ∧ digitVal? 10 c = none) ∧ 1 ≤ f := by
  unfold suffix_factor at h
  split_ifs at h with h1 h2 h3
  · rcases h1 with h1 | h1 <;> subst h1 <;>
      exact ⟨⟨_, rfl, by decide⟩, by simp at h; omega⟩
  · rcases h2 with h2 | h2 <;> subst h2 <;>
      exact ⟨⟨_, rfl, by decide⟩, by simp at h; omega⟩
  · rcases h3 with h3 | h3 <;> subst h3 <;>
      exact ⟨⟨_, rfl, by decide⟩, by simp at h; omega⟩

lemma wrap64_id (x : Int) (h1 : -9223372036854775808 ≤ x)
    (h2 : x ≤ 9223372036854775807) : wrap64 x = x := by
  unfold wrap64
  omega

lemma toU32_ofNat (n : Nat) : toU32 (n : Int) = n % U32 := by
  unfold toU32 U32
  omega

/-- Evaluation of `str_to_scan_size` once `strtol` has produced a positive
in-range value `n` with remainder `sfx`: the value times the suffix factor
is truncated to 32 bits and then gated at 32 MiB. -/
lemma str_to_scan_size_eval (s : List Char) (n : Nat) (sfx : List Char) (f : Nat)
    (hs : strtol0 s = { val := (n : Int), err := false, rest := sfx })
    (hpos : 0 < n)
    (hsf : sfx = [] ∧ f = 1 ∨ suffix_factor sfx = some f)
    (hrange : n * f ≤ 9223372036854775807) :
    str_to_scan_size s
      = if 32 * 1024 * 1024 < n * f % U32 then 0 else n * f % U32 := by
  have hf1 : 1 ≤ f := by
    rcases hsf with ⟨_, rfl⟩ | h
    · omega
    · exact (suffix_factor_cases _ _ h).2
  have hn_le : n ≤ 9223372036854775807 := by
    have h1 : n * 1 ≤ n * f := Nat.mul_le_mul_left _ hf1
    omega
  simp only [str_to_scan_size, hs]
  rw [if_neg (by rw [not_or]; exact ⟨by simp, by simp; omega⟩)]
  rcases hsf with ⟨rfl, rfl⟩ | h
  · rw [if_pos rfl]
    simp only [toU32_ofNat, Nat.mul_one]
  · obtain ⟨⟨c0, rfl, hc0⟩, _⟩ := suffix_factor_cases _ _ h
    rw [if_neg (by simp), h]
    have hcast : (n : Int) * (f : Int) = ((n * f : Nat) : Int) := by push_cast; ring
    simp only [hcast]
    rw [wrap64_id _ (by omega) (by omega)]
    simp only [toU32_ofNat]

/-! # Claim theorems: size and sector parsing -/

/-- C6 (corrected — counterexample): the input `4294967396` has value
greater than 32 MiB, yet size resolution does not fail with 0: the value is
truncated to 32 bits (`4294967396 mod 2^32 = 100`) *before* the 32 MiB
check, so 100 is returned. -/
theorem C6_counterexample :
    (strtol0 ("4294967396".data)).val = 4294967396
    ∧ str_to_scan_size ("4294967396".data) = 100
    ∧ str_to_scan_size ("4294967396".data) ≠ 0
    ∧ 32 * 1024 * 1024 < 4294967396 := by
  refine ⟨by decide, by decide, by decide, by decide⟩

/-- C6 (amended): for a size string `"<n><suffix>"` (canonical positive
decimal numeral, suffix in the empty string / `b` / `B` / `k` / `K` / `m` /
`M`, product representable in a signed 64-bit `long`), resolution returns
`(n * factor) mod 2^32` when that truncated value is at most 32 MiB and 0
otherwise; in particular it returns exactly `n * factor` whenever the
product lies in `(0, 32 MiB]`.  Non-numeric input, non-positive values
(a negative numeral `"-<n>"` or the zero numeral `"0"`, with any suffix)
and unrecognized suffixes all resolve to 0. -/
theorem C6_amended :
    (∀ (ds : List Nat) (sfx : List Char) (f : Nat),
        ds ≠ [] → (∀ d ∈ ds, d < 10) → ds.head? ≠ some 0 →
        (sfx = [] ∧ f = 1 ∨ suffix_factor sfx = some f) →
        digitsVal 10 ds * f ≤ 9223372036854775807 →
        str_to_scan_size (ds.map decChar ++ sfx)
          = if 32 * 1024 * 1024 < digitsVal 10 ds * f % U32 then 0
            else digitsVal 10 ds * f % U32)
    ∧ (∀ s : List Char, numeric_start s = false → str_to_scan_size s = 0)
    ∧ (∀ (ds : List Nat) (sfx : List Char),
        ds ≠ [] → (∀ d ∈ ds, d < 10) → ds.head? ≠ some 0 →
        (∀ c t, sfx = c :: t → digitVal? 10 c = none) →
        digitsVal 10 ds ≤ 9223372036854775808 →
        str_to_scan_size ('-' :: (ds.map decChar ++ sfx)) = 0)
    ∧ (∀ (sfx : List Char) (f : Nat),
        sfx = [] ∧ f = 1 ∨ suffix_factor sfx = some f →
        str_to_scan_size ('0' :: sfx) = 0)
    ∧ (∀ (ds : List Nat) (sfx : List Char),
        ds ≠ [] → (∀ d ∈ ds, d < 10) → ds.head? ≠ some 0 →
        digitsVal 10 ds ≤ 9223372036854775807 →
        sfx ≠ [] → suffix_factor sfx = none →
        (∀ c t, sfx = c :: t → digitVal? 10 c = none) →
        str_to_scan_size (ds.map decChar ++ sfx) = 0) := by
  refine ⟨?_, ?_, ?_, ?_, ?_⟩
  · intro ds sfx f hne hds hh hsf hrange
    have hf1 : 1 ≤ f := by
      rcases hsf with ⟨_, rfl⟩ | h
      · omega
      · exact (suffix_factor_cases _ _ h).2
    have hn_le : digitsVal 10 ds ≤ 9223372036854775807 := by
      have h1 : digitsVal 10 ds * 1 ≤ digitsVal 10 ds * f := Nat.mul_le_mul_left _ hf1
      omega
    have hpos : 0 < digitsVal 10 ds := digitsVal_head_pos ds hne hh
    have hsfxhead : ∀ c t, sfx = c :: t → digitVal? 10 c = none := by
      rcases hsf with ⟨rfl, _⟩ | h
      · intro c t hct
        simp at hct
      · obtain ⟨⟨c0, rfl, hc0⟩, _⟩ := suffix_factor_cases _ _ h
        intro c t hct
        simp only [List.cons.injEq] at hct
        obtain ⟨rfl, _⟩ := hct
        exact hc0
    exact str_to_scan_size_eval _ _ _ _
      (strtol0_decimal ds sfx hne hds hh hsfxhead hn_le) hpos hsf hrange
  · intro s h
    obtain ⟨h1, h2⟩ := strtol0_nonnumeric s h
    simp only [str_to_scan_size]
    rw [if_pos (Or.inr (by rw [h1]))]
  · intro ds sfx hne hds hh hsfx hrange
    have hstr := strtol0_neg_decimal ds sfx hne hds hh hsfx hrange
    simp only [str_to_scan_size, hstr]
    rw [if_pos (Or.inr (by omega))]
  · intro sfx f hsf
    rcases hsf with ⟨rfl, rfl⟩ | h
    · decide
    · rcases suffix_factor_enum _ _ h with rfl | rfl | rfl | rfl | rfl | rfl <;> decide
  · intro ds sfx hne hds hh hrange hne2 hsfnone hsfxhead
    have hpos : 0 < digitsVal 10 ds := digitsVal_head_pos ds hne hh
    have hstr := strtol0_decimal ds sfx hne hds hh hsfxhead hrange
    simp only [str_to_scan_size, hstr]
    rw [if_neg (by rw [not_or]; exact ⟨by simp, by simp; omega⟩)]
    rw [if_neg hne2, hsfnone]

/-- C6 witness: the amended statement at `"128K"` (end-to-end scenario A),
at a non-numeric string, at the negative numeral `"-5"`, at the zero size
`"0K"`, and at the unrecognized suffix `"10Q"`. -/
theorem C6_witness :
    str_to_scan_size (List.map decChar [1, 2, 8] ++ ['K'])
      = (if 32 * 1024 * 1024 < digitsVal 10 [1, 2, 8] * 1024 % U32 then 0
          else digitsVal 10 [1, 2, 8] * 1024 % U32)
    ∧ str_to_scan_size ("abc".data) = 0
    ∧ str_to_scan_size ('-' :: (List.map decChar [5] ++ [])) = 0
    ∧ str_to_scan_size ('0' :: ['K']) = 0
    ∧ str_to_scan_size (List.map decChar [1, 0] ++ ['Q']) = 0 :=
  ⟨C6_amended.1 [1, 2, 8] ['K'] 1024 (by decide) (by decide) (by decide)
      (Or.inr (by decide)) (by decide),
    C6_amended.2.1 ("abc".data) (by decide),
    C6_amended.2.2.1 [5] [] (by decide) (by decide) (by decide)
      (by intro c t h; simp at h) (by decide),
    C6_amended.2.2.2.1 ['K'] 1024 (Or.inr (by decide)),
    C6_amended.2.2.2.2 [1, 0] ['Q'] (by decide) (by decide) (by decide)
      (by decide) (by decide) (by decide) (by intro c t h; cases h; decide)⟩

/-- C7 (code bug): the usage text promises the transfer size "must be
multiple of 512", but nothing enforces it: `--size 100` resolves to 100
bytes (not a multiple of 512), `parse_args` accepts it, and the run
proceeds to open and scan the device. -/
theorem C7_size_multiple_unenforced :
    str_to_scan_size ("100".data) = 100
    ∧ 100 % 512 ≠ 0
    ∧ (parse_args [cli_arg.size "100"] ["/dev/sda"] cli_initial_opts).map
        options_t.scan_size = some 100
    ∧ (diskscan_cli [cli_arg.size "100"] ["/dev/sda"]
        ⟨true, true, true, true⟩).1.disk_scan_calls = 1
    ∧ (diskscan_cli [cli_arg.size "100"] ["/dev/sda"] ⟨true, true, true, true⟩).2 = 0 := by
  refine ⟨by decide, by decide, by decide, by decide, by decide⟩

/-- C10 (confirmed): sector-option parsing is total (always stores a value
below `2^64`), silently accepts a non-numeric string as sector 0, and sends
a negative decimal string through the signed 64-bit parse into the unsigned
64-bit field, wrapping modulo `2^64`; both `-S` and `-E` store
`(uint64_t) atoll(optarg)`. -/
theorem C10_sector_options :
    (∀ s : List Char, toU64 (atoll s) < U64)
    ∧ (∀ s : List Char, numeric_start s = false → toU64 (atoll s) = 0)
    ∧ (∀ ds : List Nat, (∀ d ∈ ds, d < 10) →
        0 < digitsVal 10 ds → digitsVal 10 ds ≤ 9223372036854775808 →
        toU64 (atoll ('-' :: ds.map decChar)) = U64 - digitsVal 10 ds)
    ∧ (∀ (a : String) (o : options_t) (am : disk_mount_e) (u : Bool),
        (apply_arg (o, am, u) (cli_arg.start_sector a)).1.start_sector
          = toU64 (atoll a.data)
        ∧ (apply_arg (o, am, u) (cli_arg.end_sector a)).1.end_sector
          = toU64 (atoll a.data)) := by
  refine ⟨?_, ?_, ?_, ?_⟩
  · intro s
    unfold toU64 U64
    omega
  · intro s h
    rw [atoll_nonnumeric s h]
    decide
  · intro ds hds hpos hle
    rw [atoll_neg_decimal ds hds]
    unfold toU64 U64
    omega
  · intro a o am u
    exact ⟨rfl, rfl⟩

/-- C10 witness: the negative-decimal wrap evaluated at `"-5"` and the
non-numeric case at `"abc"`. -/
theorem C10_witness :
    toU64 (atoll ('-' :: List.map decChar [5])) = U64 - digitsVal 10 [5]
    ∧ toU64 (atoll ("abc".data)) = 0 :=
  ⟨C10_sector_options.2.2.1 [5] (by decide) (by decide) (by decide),
    C10_sector_options.2.1 ("abc".data) (by decide)⟩

/-! # Claim theorems: lifecycle coordinator and cancellation -/

/-- C1 (corrected — counterexample): with a raw log configured, a
successful device open and a *failed* raw-log attach, the coordinator still
calls the raw log's end function exactly once — so "end called exactly once
iff start succeeded" is false (the start result is never consulted). -/
theorem C1_counterexample :
    ¬ (((diskscan_cli [cli_arg.raw_log "raw.json"] ["/dev/sda"]
          ⟨true, false, true, true⟩).1.data_log_raw_end_calls = 1)
        ↔ data_log_raw_start_succeeded
            (diskscan_cli [cli_arg.raw_log "raw.json"] ["/dev/sda"]
              ⟨true, false, true, true⟩).1
            ⟨true, false, true, true⟩) := by
  simp only [data_log_raw_start_succeeded]
  decide

/-- C1 (amended): on every run, `disk_close` is called exactly once iff
`disk_open` succeeded; and each optional log's end function is called
exactly once iff its start function was *called* (i.e. the log was
configured and the device opened) — the start functions' results are
ignored, so a log-attach failure neither suppresses the end call nor aborts
the run. -/
theorem C1_amended (args : List cli_arg) (positionals : List String)
    (env : engine_env) :
    ((diskscan_cli args positionals env).1.disk_close_calls = 1
      ↔ disk_open_succeeded (diskscan_cli args positionals env).1 env)
    ∧ (diskscan_cli args positionals env).1.disk_close_calls ≤ 1
    ∧ ((diskscan_cli args positionals env).1.data_log_raw_end_calls = 1
      ↔ (diskscan_cli args positionals env).1.data_log_raw_start_calls = 1)
    ∧ (diskscan_cli args positionals env).1.data_log_raw_end_calls ≤ 1
    ∧ ((diskscan_cli args positionals env).1.data_log_end_calls = 1
      ↔ (diskscan_cli args positionals env).1.data_log_start_calls = 1)
    ∧ (diskscan_cli args positionals env).1.data_log_end_calls ≤ 1 := by
  rcases env with ⟨eo, er, el, es⟩
  rcases hp : parse_args args positionals cli_initial_opts with _ | opts
  · simp [diskscan_cli, hp, disk_open_succeeded, no_calls]
  · cases eo
    · simp [diskscan_cli, hp, disk_open_succeeded, no_calls]
    · by_cases hr : opts.data_log_raw_name.isSome <;>
        by_cases hl : opts.data_log_name.isSome <;>
          simp [diskscan_cli, hp, disk_open_succeeded, hr, hl]

lemma parse_args_some_length (args : List cli_arg) (positionals : List String)
    (o0 o : options_t) (h : parse_args args positionals o0 = some o) :
    positionals.length = 1 := by
  simp only [parse_args] at h
  split_ifs at h
  omega

/-- C8 (confirmed): the run returns 0 exactly when argument parsing, device
open and the scan all succeed, and 1 on every failure; with two positional
device paths it is a usage failure (exit 1) and the device is never
opened. -/
theorem C8_exit_codes (args : List cli_arg) (positionals : List String)
    (env : engine_env) :
    ((diskscan_cli args positionals env).2 = 0
      ∨ (diskscan_cli args positionals env).2 = 1)
    ∧ ((diskscan_cli args positionals env).2 = 0 ↔
        ((parse_args args positionals cli_initial_opts).isSome
          ∧ env.disk_open_ok = true ∧ env.disk_scan_ok = true))
    ∧ (2 ≤ positionals.length →
        (diskscan_cli args positionals env).2 = 1
        ∧ (diskscan_cli args positionals env).1.disk_open_calls = 0) := by
  rcases env with ⟨eo, er, el, es⟩
  rcases hp : parse_args args positionals cli_initial_opts with _ | opts
  · refine ⟨Or.inr (by simp [diskscan_cli, hp]), by simp [diskscan_cli, hp], ?_⟩
    intro h2
    exact ⟨by simp [diskscan_cli, hp], by simp [diskscan_cli, hp, no_calls]⟩
  · have hlen := parse_args_some_length _ _ _ _ hp
    have hvac : ¬ 2 ≤ positionals.length := by omega
    cases eo
    · exact ⟨Or.inr (by simp [diskscan_cli, hp]), by simp [diskscan_cli, hp],
        fun h2 => absurd h2 hvac⟩
    · cases es
      · exact ⟨Or.inr (by simp [diskscan_cli, hp]), by simp [diskscan_cli, hp],
          fun h2 => absurd h2 hvac⟩
      · exact ⟨Or.inl (by simp [diskscan_cli, hp]), by simp [diskscan_cli, hp],
          fun h2 => absurd h2 hvac⟩

/-- C8 witness: two positional device paths yield exit code 1 with the
device never opened (end-to-end scenario C). -/
theorem C8_witness :
    (diskscan_cli [] ["/dev/sda", "/dev/sdb"] ⟨true, true, true, true⟩).2 = 1
    ∧ (diskscan_cli [] ["/dev/sda", "/dev/sdb"]
        ⟨true, true, true, true⟩).1.disk_open_calls = 0 :=
  (C8_exit_codes [] ["/dev/sda", "/dev/sdb"] ⟨true, true, true, true⟩).2.2 (by decide)

/-- C9 (confirmed): SIGINT and SIGTERM are both routed to the stop handler
rather than process termination; the handler performs the cooperative
`Running → StopRequested` transition, is defined in every state (safe to
trigger at any point), and is idempotent — delivering it again has no
further effect. -/
theorem C9_cooperative_stop :
    (∀ sig : signal_t, setup_signals sig = signal_disposition.CallStopHandler)
    ∧ (∀ s : scan_state, diskscan_cli_signal s = scan_state.StopRequested)
    ∧ (∀ s : scan_state,
        diskscan_cli_signal (diskscan_cli_signal s) = diskscan_cli_signal s) :=
  ⟨fun _ => rfl, fun _ => rfl, fun _ => rfl⟩

end Diskscan
